import Mathlib

/-!
Verification of the USAA transaction summarizer (`src/main.py`) against its
natural-language specification.

Python strings are modelled as `List Char`; pandas `DataFrame` rows as a list
of `Txn` records; monetary amounts as `ℚ` (the spec mandates decimal
arithmetic); Python `round` / pandas `.round` as round-half-to-even on `ℚ`;
Python's faulting division as an `Option`-valued division.
-/

/-- Characters treated as whitespace by Python's `str.strip` (ASCII range). -/
def pyIsSpace (c : Char) : Bool :=
  c = ' ' || c = '\t' || c = '\n' || c = '\r' || c = '\x0b' || c = '\x0c'

/-- Drop leading whitespace, as Python `str.lstrip`. -/
def stripLeft (s : List Char) : List Char := s.dropWhile pyIsSpace

/-- Drop trailing whitespace, as Python `str.rstrip`. -/
def stripRight (s : List Char) : List Char := (s.reverse.dropWhile pyIsSpace).reverse

/-- Python `str.strip`: drop whitespace from both ends. -/
def pyStrip (s : List Char) : List Char := stripLeft (stripRight s)

/-- Python's substring containment test `pat in s` (case-sensitive). -/
def containsSub (pat : List Char) : List Char → Bool
  | [] => pat.isEmpty
  | c :: rest => pat.isPrefixOf (c :: rest) || containsSub pat rest

/-- The part of `s` before the first occurrence of `pat`;
`s` itself when `pat` does not occur.  This is Python `s.split(pat)[0]`
for a non-empty `pat`. -/
def takeBefore (pat : List Char) : List Char → List Char
  | [] => []
  | c :: rest => if pat.isPrefixOf (c :: rest) then [] else c :: takeBefore pat rest

/-- Coerce a Lean string literal to the `List Char` string model. -/
def str (s : String) : List Char := s.toList

/-- The default branch of `clean_merchant_name` (src/main.py lines 211-216):
take the part of the trimmed description before the first `"***"`, strip it,
and if longer than 50 characters truncate to 50 and strip again. -/
def defaultMerchant (d : List Char) : List Char :=
  let cleaned := pyStrip (takeBefore (str ("***")) d)
  if 50 < cleaned.length then pyStrip (cleaned.take 50) else cleaned

/-- The pattern-rule chain of `clean_merchant_name` (src/main.py lines 194-216),
applied to the already-trimmed description. -/
def cleanMerchantTrimmed (d : List Char) : List Char :=
  if containsSub (str ("UBER EATS")) d then str ("Uber Eats")
  else if containsSub (str ("PAYPAL")) d then
    if containsSub (str ("INST XFER")) d then str ("PayPal Transfer") else str ("PayPal")
  else if containsSub (str ("CAREERBUILDER")) d then str ("CareerBuilder Paycheck")
  else if containsSub (str ("INTEREST PAID")) d then str ("Interest Income")
  else if containsSub (str ("Georgia Departme")) d then str ("Georgia State Tax Refund")
  else if containsSub (str ("IRS  TREAS")) d && containsSub (str ("TAX REF")) d then
    str ("Federal Tax Refund")
  else defaultMerchant d

/-- `clean_merchant_name` (src/main.py lines 189-216): strip the description,
then apply the ordered pattern rules, first match wins. -/
def clean_merchant_name (desc : List Char) : List Char :=
  cleanMerchantTrimmed (pyStrip desc)

/-- The six pattern-rule conditions of `clean_merchant_name` all fail on the
trimmed description `d`, so the default truncation branch is taken. -/
def noPatternMatch (d : List Char) : Prop :=
  containsSub (str ("UBER EATS")) d = false ∧
  containsSub (str ("PAYPAL")) d = false ∧
  containsSub (str ("CAREERBUILDER")) d = false ∧
  containsSub (str ("INTEREST PAID")) d = false ∧
  containsSub (str ("Georgia Departme")) d = false ∧
  (containsSub (str ("IRS  TREAS")) d && containsSub (str ("TAX REF")) d) = false

/-- Floor of a rational, computably: `⌊num/den⌋` via flooring integer division. -/
def ratFloor (x : ℚ) : ℤ := Int.fdiv x.num x.den

/-- Round-half-to-even to the nearest integer, as Python's built-in `round`
and pandas `.round` (banker's rounding). -/
def roundHalfEven (x : ℚ) : ℤ :=
  let n := ratFloor x
  let frac := x - n
  if frac < 1/2 then n
  else if 1/2 < frac then n + 1
  else if n % 2 = 0 then n else n + 1

/-- `round(x, p)`: round-half-to-even at `p` decimal places. -/
def roundTo (p : ℕ) (x : ℚ) : ℚ := (roundHalfEven (x * 10 ^ p) : ℚ) / 10 ^ p

/-- `round(x, 2)` as used for merchant totals. -/
def round2 (x : ℚ) : ℚ := roundTo 2 x

/-- `round(x, 1)` as used for percentages. -/
def round1 (x : ℚ) : ℚ := roundTo 1 x

/-- `x` is a whole number of cents (an integer multiple of `1/100`). -/
def Cents (x : ℚ) : Prop := ∃ c : ℤ, x = (c : ℚ) / 100

/-- Python's `/`, which raises `ZeroDivisionError` on a zero denominator,
modelled as an `Option`. -/
def pyDiv (a b : ℚ) : Option ℚ := if b = 0 then none else some (a / b)

/-- A bank transaction record as read from the CSV: the calendar month of its
`Date` (day discarded — only year and month feed the grouping), its
`Description`, signed `Amount` and `Status`. -/
structure Txn where
  year : ℕ
  month : ℕ
  description : List Char
  amount : ℚ
  status : String
deriving DecidableEq

/-- The derived `TransactionType` column (src/main.py line 236):
`'Deposit' if x > 0 else 'Withdrawal'`. -/
def transaction_type (amount : ℚ) : String :=
  if 0 < amount then ("Deposit") else ("Withdrawal")

/-- `clean_data` (src/main.py line 239), restricted to what downstream
aggregation consumes: keep only rows with `Status == 'Posted'`. -/
def clean_data (df : List Txn) : List Txn :=
  df.filter (fun r => decide (r.status = "Posted"))

/-- The grouping key derived from a record's date: calendar year and month. -/
def monthKey (r : Txn) : ℕ × ℕ := (r.year, r.month)

/-- The distinct months appearing in a record set (the groups of
`df.groupby('MonthName')`). -/
def monthKeys (rs : List Txn) : List (ℕ × ℕ) := (rs.map monthKey).dedup

/-- The records of a given month (one `groupby` group). -/
def monthRecords (rs : List Txn) (k : ℕ × ℕ) : List Txn :=
  rs.filter (fun r => decide (monthKey r = k))

/-- Per-month aggregate of `calculate_monthly_totals`. -/
structure MonthStat where
  deposits : ℚ
  spending : ℚ
  net : ℚ
  transaction_count : ℕ
deriving DecidableEq

/-- The spending rows of a month: records with `Amount < 0`
(src/main.py line 104, and the same filter at line 176). -/
def spendingTxnsOf (ms : List Txn) : List Txn :=
  ms.filter (fun r => decide (r.amount < 0))

/-- The body of `calculate_monthly_totals` for one month's records
(src/main.py lines 175-184). -/
def monthlyTotalsFor (ms : List Txn) : MonthStat :=
  let deposits := ((ms.filter (fun r => decide (0 < r.amount))).map Txn.amount).sum
  let spending := |((spendingTxnsOf ms).map Txn.amount).sum|
  { deposits := deposits
    spending := spending
    net := deposits - spending
    transaction_count := ms.length }

/-- `calculate_monthly_totals` (src/main.py lines 169-186): per-month stats as
an association list keyed by month. -/
def calculate_monthly_totals (rs : List Txn) : List ((ℕ × ℕ) × MonthStat) :=
  (monthKeys rs).map (fun k => (k, monthlyTotalsFor (monthRecords rs k)))

/-- One merchant row of the per-month spending report. -/
structure MerchantRow where
  merchant : List Char
  total : ℚ
  count : ℕ
deriving DecidableEq

/-- The distinct clean-merchant names of a record set
(the groups of `groupby('CleanMerchant')`). -/
def merchantNames (ms : List Txn) : List (List Char) :=
  (ms.map (fun r => clean_merchant_name r.description)).dedup

/-- The records of a given clean merchant. -/
def merchantGroup (ms : List Txn) (m : List Char) : List Txn :=
  ms.filter (fun r => decide (clean_merchant_name r.description = m))

/-- One aggregated merchant row (src/main.py lines 110-118): the amounts are
summed, rounded to 2 decimal places, then made positive with `abs`; the count
is the number of records of that merchant. -/
def merchantRowOf (ms : List Txn) (m : List Char) : MerchantRow :=
  { merchant := m
    total := |round2 (((merchantGroup ms m).map Txn.amount).sum)|
    count := (merchantGroup ms m).length }

/-- Sort order of spending rows: by `total` descending
(src/main.py line 121). -/
def rowGE (a b : MerchantRow) : Prop := b.total ≤ a.total

instance : DecidableRel rowGE :=
  fun a b => inferInstanceAs (Decidable (b.total ≤ a.total))

instance : IsTrans MerchantRow rowGE :=
  ⟨fun _ _ _ h1 h2 => le_trans h2 h1⟩

instance : IsTotal MerchantRow rowGE :=
  ⟨fun a b => le_total b.total a.total⟩

/-- The merchant table for one month's spending records (src/main.py
lines 110-121): group by clean merchant, aggregate, sort by total descending. -/
def spendingReportRows (sdf : List Txn) : List MerchantRow :=
  List.insertionSort rowGE ((merchantNames sdf).map (merchantRowOf sdf))

/-- `create_spending_report` (src/main.py lines 97-125): per month, restrict to
negative amounts; months with no spending rows are skipped entirely. -/
def create_spending_report (rs : List Txn) : List ((ℕ × ℕ) × List MerchantRow) :=
  (monthKeys rs).filterMap (fun k =>
    if (spendingTxnsOf (monthRecords rs k)).length = 0 then none
    else some (k, spendingReportRows (spendingTxnsOf (monthRecords rs k))))

/-- `month_total` of a month's spending table: the sum of the per-merchant
`total` column (src/main.py lines 46 and 76). -/
def monthTotalOf (rows : List MerchantRow) : ℚ :=
  (rows.map MerchantRow.total).sum

/-- Percentage-of-month of one value against the month denominator, rounded to
1 decimal place, as computed at src/main.py line 53 (export) and displayed with
format `.1f` at lines 86 and 92. -/
def pctOf (total month_total : ℚ) : ℚ := round1 (total / month_total * 100)

/-- The `Percentage_of_Month` column values exported for one month's rows
(src/main.py lines 46-53). -/
def exportPcts (rows : List MerchantRow) : List ℚ :=
  rows.map (fun r => pctOf r.total (monthTotalOf rows))

/-- The percentages printed for one month by `print_spending_details`
(src/main.py lines 82-94): the top (at most) 10 merchants, followed by the
synthetic ("... and N others") row when more than 10 merchants exist. -/
def displayPcts (rows : List MerchantRow) : List ℚ :=
  let shown := (rows.take 10).map (fun r => pctOf r.total (monthTotalOf rows))
  if 10 < rows.length then
    shown ++ [pctOf (((rows.drop 10).map MerchantRow.total).sum) (monthTotalOf rows)]
  else shown

/-- The average-per-month block of `print_monthly_summary` (src/main.py lines
157-166): totals are summed over the months, then divided by the number of
months.  The division is Python's, faulting (`none`) when there are zero
months. -/
def print_monthly_summary (stats : List ((ℕ × ℕ) × MonthStat)) (postedCount : ℕ) :
    Option (ℚ × ℚ × ℚ × ℚ) :=
  let total_deposits := (stats.map (fun p => p.2.deposits)).sum
  let total_spending := (stats.map (fun p => p.2.spending)).sum
  let num_months : ℚ := (stats.length : ℚ)
  match pyDiv total_deposits num_months, pyDiv total_spending num_months,
      pyDiv (total_deposits - total_spending) num_months,
      pyDiv (postedCount : ℚ) num_months with
  | some a, some b, some c, some d => some (a, b, c, d)
  | _, _, _, _ => none

/-- A decimal digit character (`'0'`-`'9'`). -/
def digitChar (d : ℕ) : Char := Char.ofNat (48 + d % 10)

/-- Four-digit zero-padded decimal rendering, as `strftime('%Y')` for years
1000-9999. -/
def render4 (y : ℕ) : List Char :=
  [digitChar (y / 1000), digitChar (y / 100), digitChar (y / 10), digitChar y]

/-- Two-digit zero-padded decimal rendering, as `strftime('%m')`. -/
def render2 (m : ℕ) : List Char := [digitChar (m / 10), digitChar m]

/-- The `'%Y-%m'` rendering of a month key (src/main.py line 24). -/
def renderMonthKey (k : ℕ × ℕ) : List Char :=
  render4 k.1 ++ '-' :: render2 k.2

/-- Parse one decimal digit character. -/
def parseDigit (c : Char) : Option ℕ :=
  if 48 ≤ c.toNat ∧ c.toNat ≤ 57 then some (c.toNat - 48) else none

/-- Parse a `"YYYY-MM"` month string back into a month key. -/
def parseMonthKey (s : List Char) : Option (ℕ × ℕ) :=
  match s with
  | [a, b, c, d, dash, e, f] =>
    if dash = '-' then
      match parseDigit a, parseDigit b, parseDigit c, parseDigit d,
          parseDigit e, parseDigit f with
      | some a', some b', some c', some d', some e', some f' =>
        some (1000 * a' + 100 * b' + 10 * c' + d', 10 * e' + f')
      | _, _, _, _, _, _ => none
    else none
  | _ => none

/-- One row of the exported `monthly_summary.csv` (src/main.py lines 19-29). -/
structure SummaryRow where
  month : List Char
  deposits : ℚ
  spending : ℚ
  net : ℚ
  transaction_count : ℕ
deriving DecidableEq

/-- Lexicographic (code-point) order on strings, the order pandas
`sort_values('Month')` uses on the `"YYYY-MM"` strings. -/
def lexLe : List Char → List Char → Bool
  | [], _ => true
  | _ :: _, [] => false
  | a :: as, b :: bs =>
    if a.toNat < b.toNat then true
    else if b.toNat < a.toNat then false
    else lexLe as bs

/-- The monthly-summary half of `export_to_csv` (src/main.py lines 15-35):
one row per month with the month rendered `"YYYY-MM"`, sorted ascending by
that string. -/
def export_monthly_summary (stats : List ((ℕ × ℕ) × MonthStat)) : List SummaryRow :=
  List.insertionSort (fun a b => lexLe a.month b.month = true)
    (stats.map (fun p =>
      { month := renderMonthKey p.1
        deposits := p.2.deposits
        spending := p.2.spending
        net := p.2.net
        transaction_count := p.2.transaction_count }))

/-- Re-parse exported monthly-summary rows into per-month stats. -/
def parse_monthly_summary (rows : List SummaryRow) : List ((ℕ × ℕ) × MonthStat) :=
  rows.filterMap (fun r =>
    (parseMonthKey r.month).map (fun k =>
      (k, { deposits := r.deposits
            spending := r.spending
            net := r.net
            transaction_count := r.transaction_count })))

/-- Concrete input for C1: a single Pending row, so there are zero posted
transactions and zero distinct months downstream. -/
def exPending : List Txn :=
  [{ year := 2024, month := 1, description := str ("RENT"), amount := -500,
     status := "Pending" }]

/-- Concrete input for C2: one month, four posted spending rows whose
percentages all round down by exactly 0.05. -/
def exPct : List Txn :=
  [{ year := 2024, month := 3, description := str ("AAA"), amount := -1425/100,
     status := "Posted" },
   { year := 2024, month := 3, description := str ("BBB"), amount := -1425/100,
     status := "Posted" },
   { year := 2024, month := 3, description := str ("CCC"), amount := -1425/100,
     status := "Posted" },
   { year := 2024, month := 3, description := str ("DDD"), amount := -5725/100,
     status := "Posted" }]

/-- Concrete input for C10: a single posted spending row of -0.004 dollars,
whose merchant total rounds to 0.00. -/
def exTiny : List Txn :=
  [{ year := 2024, month := 5, description := str ("ZZZ"), amount := -1/250,
     status := "Posted" }]

/-- A month with only a deposit and no spending rows: it must appear in the
monthly totals but be absent from the spending report. -/
def exDeposit : List Txn :=
  [{ year := 2024, month := 3, description := str ("INTEREST PAID"), amount := 5,
     status := "Posted" }]

/-- The spec's March 2024 example (§8): a deposit of 1500.00, Uber Eats
-42.15, Netflix -9.99, all posted; plus a Pending row that must not count. -/
def exMarch : List Txn :=
  [{ year := 2024, month := 3, description := str ("CAREERBUILDER PAYCHECK"),
     amount := 1500, status := "Posted" },
   { year := 2024, month := 3, description := str ("UBER EATS ***1234"),
     amount := -4215/100, status := "Posted" },
   { year := 2024, month := 3, description := str ("NETFLIX.COM"),
     amount := -999/100, status := "Posted" }]

theorem ratFloor_bounds (x : ℚ) : (ratFloor x : ℚ) ≤ x ∧ x < ratFloor x + 1 := by
  have hd : (0 : ℤ) < (x.den : ℤ) := by exact_mod_cast x.pos
  have hqe : ratFloor x = x.num / (x.den : ℤ) := by
    rw [ratFloor, Int.fdiv_eq_ediv _ hd.le]
  have h := Int.emod_add_ediv x.num (x.den : ℤ)
  have hr0 : 0 ≤ x.num % (x.den : ℤ) := Int.emod_nonneg _ (ne_of_gt hd)
  have hrlt : x.num % (x.den : ℤ) < (x.den : ℤ) := Int.emod_lt_of_pos _ hd
  have hdq : (0 : ℚ) < (x.den : ℚ) := by exact_mod_cast hd
  have hxq : x * (x.den : ℚ) = (x.num : ℚ) :=
    ((div_eq_iff (ne_of_gt hdq)).mp (Rat.num_div_den x)).symm
  constructor
  · rw [← mul_le_mul_right hdq, hxq]
    have : ratFloor x * (x.den : ℤ) ≤ x.num := by
      rw [hqe]; nlinarith [h, hr0]
    exact_mod_cast this
  · rw [← mul_lt_mul_right hdq, hxq]
    have : x.num < (ratFloor x + 1) * (x.den : ℤ) := by
      rw [hqe]; nlinarith [h, hrlt]
    exact_mod_cast this

theorem abs_roundHalfEven_sub_le (x : ℚ) : |(roundHalfEven x : ℚ) - x| ≤ 1 / 2 := by
  obtain ⟨h1, h2⟩ := ratFloor_bounds x
  rw [roundHalfEven]
  split_ifs with hc1 hc2 hc3 <;> rw [abs_le] <;> push_cast <;> constructor <;> linarith

theorem abs_roundTo_sub_le (p : ℕ) (x : ℚ) : |roundTo p x - x| ≤ 1 / (2 * 10 ^ p) := by
  have h := abs_roundHalfEven_sub_le (x * 10 ^ p)
  have hp : (0 : ℚ) < 10 ^ p := by positivity
  rw [roundTo]
  have heq : (roundHalfEven (x * 10 ^ p) : ℚ) / 10 ^ p - x
      = ((roundHalfEven (x * 10 ^ p) : ℚ) - x * 10 ^ p) / 10 ^ p := by
    field_simp
    ring
  rw [heq, abs_div, abs_of_pos hp]
  calc |(roundHalfEven (x * 10 ^ p) : ℚ) - x * 10 ^ p| / 10 ^ p
      ≤ (1 / 2) / 10 ^ p := by gcongr
    _ = 1 / (2 * 10 ^ p) := by ring

theorem abs_round1_sub_le (x : ℚ) : |round1 x - x| ≤ 1 / 20 := by
  have := abs_roundTo_sub_le 1 x
  rw [round1]; norm_num at this ⊢; linarith

theorem abs_round2_sub_le (x : ℚ) : |round2 x - x| ≤ 1 / 200 := by
  have := abs_roundTo_sub_le 2 x
  rw [round2]; norm_num at this ⊢; linarith

theorem roundHalfEven_intCast (c : ℤ) : roundHalfEven (c : ℚ) = c := by
  have hf : ratFloor (c : ℚ) = c := by
    rw [ratFloor, Rat.num_intCast, Rat.den_intCast]
    norm_num [Int.fdiv_one]
  rw [roundHalfEven, hf]
  norm_num

theorem round2_cents {x : ℚ} (h : Cents x) : round2 x = x := by
  obtain ⟨c, rfl⟩ := h
  rw [round2, roundTo]
  have h1 : (c : ℚ) / 100 * 10 ^ 2 = (c : ℚ) := by
    rw [show ((10 : ℚ)) ^ 2 = 100 by norm_num, div_mul_cancel₀ _ (by norm_num)]
  rw [h1, roundHalfEven_intCast]
  norm_num

theorem cents_sum (l : List ℚ) (h : ∀ x ∈ l, Cents x) : Cents l.sum := by
  induction l with
  | nil => exact ⟨0, by norm_num⟩
  | cons a t ih =>
    obtain ⟨c, hc⟩ := h a (List.mem_cons_self a t)
    obtain ⟨d, hd⟩ := ih (fun x hx => h x (List.mem_cons_of_mem _ hx))
    exact ⟨c + d, by rw [List.sum_cons, hc, hd]; push_cast; ring⟩

theorem abs_sum_map_sub_le {α : Type} (l : List α) (f g : α → ℚ) (e : ℚ)
    (h : ∀ x ∈ l, |f x - g x| ≤ e) :
    |(l.map f).sum - (l.map g).sum| ≤ l.length * e := by
  induction l with
  | nil => simp
  | cons a t ih =>
    have h1 := h a (List.mem_cons_self a t)
    have h2 := ih (fun x hx => h x (List.mem_cons_of_mem _ hx))
    simp only [List.map_cons, List.sum_cons, List.length_cons]
    have h3 : f a + (t.map f).sum - (g a + (t.map g).sum)
        = (f a - g a) + ((t.map f).sum - (t.map g).sum) := by ring
    rw [h3]
    calc |(f a - g a) + ((t.map f).sum - (t.map g).sum)|
        ≤ |f a - g a| + |(t.map f).sum - (t.map g).sum| := abs_add _ _
      _ ≤ e + t.length * e := add_le_add h1 h2
      _ = (t.length + 1) * e := by ring
      _ = ((t.length + 1 : ℕ) : ℚ) * e := by push_cast; ring

theorem sum_map_ite_eq {K : Type} [DecidableEq K] (ks : List K) (hnd : ks.Nodup)
    {k : K} (hk : k ∈ ks) (c : ℚ) :
    (ks.map (fun m => if k = m then c else 0)).sum = c := by
  induction ks with
  | nil => cases hk
  | cons a t ih =>
    obtain ⟨ha, hndt⟩ := List.nodup_cons.mp hnd
    simp only [List.map_cons, List.sum_cons]
    rcases List.mem_cons.mp hk with rfl | hkt
    · rw [if_pos rfl]
      have hz : (t.map (fun m => if k = m then c else 0)).sum = 0 := by
        apply List.sum_eq_zero
        intro x hx
        obtain ⟨m, hm, hmx⟩ := List.mem_map.mp hx
        rw [← hmx, if_neg]
        rintro rfl
        exact ha hm
      rw [hz, add_zero]
    · have hka : k ≠ a := by rintro rfl; exact ha hkt
      rw [if_neg hka, ih hndt hkt, zero_add]

theorem sum_map_add_split {K : Type} (ks : List K) (f g : K → ℚ) :
    (ks.map (fun m => f m + g m)).sum = (ks.map f).sum + (ks.map g).sum := by
  induction ks with
  | nil => simp
  | cons a t ih => simp only [List.map_cons, List.sum_cons, ih]; ring

theorem sum_filter_key {α K : Type} [DecidableEq K] (key : α → K) (f : α → ℚ)
    (l : List α) (ks : List K) (hnd : ks.Nodup) (hcov : ∀ x ∈ l, key x ∈ ks) :
    (ks.map (fun m => ((l.filter (fun r => decide (key r = m))).map f).sum)).sum
      = (l.map f).sum := by
  induction l with
  | nil =>
    simp only [List.filter_nil, List.map_nil, List.sum_nil]
    exact List.sum_eq_zero fun x hx => by
      obtain ⟨m, _, hmx⟩ := List.mem_map.mp hx
      exact hmx.symm
  | cons x t ih =>
    have hx := hcov x (List.mem_cons_self x t)
    have hcov' : ∀ y ∈ t, key y ∈ ks := fun y hy => hcov y (List.mem_cons_of_mem _ hy)
    have hsplit : ∀ m, ((List.filter (fun r => decide (key r = m)) (x :: t)).map f).sum
        = (if key x = m then f x else 0)
          + ((List.filter (fun r => decide (key r = m)) t).map f).sum := by
      intro m
      by_cases hkm : key x = m <;> simp [List.filter_cons, hkm]
    calc (ks.map (fun m => ((List.filter (fun r => decide (key r = m)) (x :: t)).map f).sum)).sum
        = (ks.map (fun m => (if key x = m then f x else 0)
            + ((List.filter (fun r => decide (key r = m)) t).map f).sum)).sum := by
          apply congrArg
          exact List.map_congr_left (fun m _ => hsplit m)
      _ = (ks.map (fun m => if key x = m then f x else 0)).sum
            + (ks.map (fun m => ((List.filter (fun r => decide (key r = m)) t).map f).sum)).sum :=
          sum_map_add_split ks _ _
      _ = f x + (t.map f).sum := by rw [sum_map_ite_eq ks hnd hx, ih hcov']
      _ = ((x :: t).map f).sum := by simp

theorem sum_neg_of_all_neg (l : List ℚ) (h : ∀ x ∈ l, x < 0) (hne : l ≠ []) :
    l.sum < 0 := by
  induction l with
  | nil => exact absurd rfl hne
  | cons a t ih =>
    rw [List.sum_cons]
    rcases t with _ | ⟨b, u⟩
    · simpa using h a (List.mem_cons_self a [])
    · have h1 := h a (List.mem_cons_self _ _)
      have h2 := ih (fun x hx => h x (List.mem_cons_of_mem _ hx)) (by simp)
      linarith

theorem sum_map_abs_of_nonpos {α : Type} (l : List α) (f : α → ℚ)
    (h : ∀ x ∈ l, f x ≤ 0) :
    (l.map (fun x => |f x|)).sum = -(l.map f).sum := by
  induction l with
  | nil => simp
  | cons a t ih =>
    simp only [List.map_cons, List.sum_cons]
    rw [abs_of_nonpos (h a (List.mem_cons_self a t)),
      ih (fun x hx => h x (List.mem_cons_of_mem _ hx))]
    ring

theorem stripLeft_head_not_space (l : List Char) {a : Char} {t : List Char}
    (h : stripLeft l = a :: t) : pyIsSpace a = false := by
  induction l with
  | nil => simp [stripLeft] at h
  | cons b bs ih =>
    rw [stripLeft, List.dropWhile_cons] at h
    by_cases hb : pyIsSpace b
    · rw [if_pos hb] at h
      exact ih h
    · rw [if_neg hb] at h
      cases h
      exact Bool.eq_false_iff.mpr hb

theorem stripRight_decomp (l : List Char) :
    stripRight l ++ (l.reverse.takeWhile pyIsSpace).reverse = l := by
  rw [stripRight]
  have h := List.takeWhile_append_dropWhile pyIsSpace l.reverse
  calc (l.reverse.dropWhile pyIsSpace).reverse ++ (l.reverse.takeWhile pyIsSpace).reverse
      = (l.reverse.takeWhile pyIsSpace ++ l.reverse.dropWhile pyIsSpace).reverse := by
        rw [List.reverse_append]
    _ = l.reverse.reverse := by rw [h]
    _ = l := List.reverse_reverse l

theorem pyStrip_eq_nil_iff (l : List Char) : pyStrip l = [] ↔ l.all pyIsSpace = true := by
  rw [List.all_eq_true]
  constructor
  · intro h x hx
    have h1 : ∀ y ∈ stripRight l, pyIsSpace y = true := by
      have := List.dropWhile_eq_nil_iff.mp h
      simpa [stripLeft] using this
    have h2 : ∀ y ∈ (l.reverse.takeWhile pyIsSpace).reverse, pyIsSpace y = true := by
      intro y hy
      exact List.mem_takeWhile_imp (List.mem_reverse.mp hy)
    rcases (List.mem_append.mp (by rw [stripRight_decomp l]; exact hx :
        x ∈ stripRight l ++ (l.reverse.takeWhile pyIsSpace).reverse)) with hx1 | hx2
    · exact h1 x hx1
    · exact h2 x hx2
  · intro h
    have h1 : stripRight l = [] := by
      rw [stripRight, List.dropWhile_eq_nil_iff.mpr
        (fun x hx => h x (List.mem_reverse.mp hx))]
      rfl
    rw [pyStrip, h1]
    rfl

theorem pyStrip_head_not_space (l : List Char) {a : Char} {t : List Char}
    (h : pyStrip l = a :: t) : pyIsSpace a = false :=
  stripLeft_head_not_space _ h

/-- C1: with zero posted transactions there are zero distinct months, and the
average-per-month computation of `print_monthly_summary` divides the totals by
the number of months, faulting (ZeroDivisionError, modelled as `none`) instead
of skipping or reporting zero as the specification requires. -/
theorem C1_zero_months_division_faults :
    print_monthly_summary (calculate_monthly_totals (clean_data exPending))
      (clean_data exPending).length = none := by
  simp [clean_data, exPending, List.filter_cons, calculate_monthly_totals, monthKeys,
    print_monthly_summary, pyDiv]

/-- C3: the pattern rules are applied in order with first match wins on the
trimmed description; a trimmed description containing `"IRS  TREAS"` (two
spaces) and `"TAX REF"` on which the five earlier rules fail maps to
`"Federal Tax Refund"`, while the one-space variant
`"IRS TREAS 310 TAX REF"` misses that rule and falls through to the default
truncation rule, which returns it unchanged. -/
theorem C3_irs_two_space_rule (desc : List Char)
    (h1 : containsSub (str ("UBER EATS")) (pyStrip desc) = false)
    (h2 : containsSub (str ("PAYPAL")) (pyStrip desc) = false)
    (h3 : containsSub (str ("CAREERBUILDER")) (pyStrip desc) = false)
    (h4 : containsSub (str ("INTEREST PAID")) (pyStrip desc) = false)
    (h5 : containsSub (str ("Georgia Departme")) (pyStrip desc) = false)
    (h6 : containsSub (str ("IRS  TREAS")) (pyStrip desc) = true)
    (h7 : containsSub (str ("TAX REF")) (pyStrip desc) = true) :
    clean_merchant_name desc = str ("Federal Tax Refund") ∧
    clean_merchant_name (str ("IRS TREAS 310 TAX REF")) = str ("IRS TREAS 310 TAX REF") ∧
    clean_merchant_name (str ("IRS  TREAS 310 TAX REF")) = str ("Federal Tax Refund") := by
  refine ⟨?_, by decide, by decide⟩
  rw [clean_merchant_name, cleanMerchantTrimmed, h1, h2, h3, h4, h5, h6, h7]
  rfl

theorem C3_witness :
    (containsSub (str ("UBER EATS")) (pyStrip (str ("IRS  TREAS 310 TAX REF"))) = false ∧
     containsSub (str ("TAX REF")) (pyStrip (str ("IRS  TREAS 310 TAX REF"))) = true) ∧
    clean_merchant_name (str ("IRS  TREAS 310 TAX REF")) = str ("Federal Tax Refund") :=
  ⟨⟨by decide, by decide⟩,
    (C3_irs_two_space_rule (str ("IRS  TREAS 310 TAX REF")) (by decide) (by decide)
      (by decide) (by decide) (by decide) (by decide) (by decide)).1⟩

/-- C4 counterexample: the description `"***1234"` is non-empty (and not
whitespace-only) yet its clean merchant name is the empty string, because the
part before the first `"***"` is empty; so ("every non-empty description yields
a non-empty result") is false as stated. -/
theorem C4_counterexample :
    clean_merchant_name (str ("***1234")) = [] ∧ str ("***1234") ≠ [] ∧
    (str ("***1234")).all pyIsSpace = false := by
  refine ⟨by decide, by decide, by decide⟩

/-- C4 (amended): on a description matching none of the named patterns,
`clean_merchant_name` returns the default truncation of the trimmed
description; the result is empty exactly when the trimmed part before the
first `"***"` strips to nothing (rather than only for whitespace-only input);
and a fully empty or whitespace-only description yields the empty string. -/
theorem C4_default_rule (desc : List Char) (hnone : noPatternMatch (pyStrip desc)) :
    clean_merchant_name desc = defaultMerchant (pyStrip desc) ∧
    (clean_merchant_name desc = [] ↔
      pyStrip (takeBefore (str ("***")) (pyStrip desc)) = []) ∧
    (desc.all pyIsSpace = true → clean_merchant_name desc = []) := by
  obtain ⟨n1, n2, n3, n4, n5, n6⟩ := hnone
  have hdef : clean_merchant_name desc = defaultMerchant (pyStrip desc) := by
    rw [clean_merchant_name, cleanMerchantTrimmed, n1, n2, n3, n4, n5, n6]
    rfl
  refine ⟨hdef, ?_, ?_⟩
  · rw [hdef, defaultMerchant]
    by_cases hlen : 50 < (pyStrip (takeBefore (str ("***")) (pyStrip desc))).length
    · rw [if_pos hlen]
      have hne : pyStrip (takeBefore (str ("***")) (pyStrip desc)) ≠ [] := by
        intro hnil
        rw [hnil] at hlen
        simp at hlen
      obtain ⟨a, t, hat⟩ : ∃ a t, pyStrip (takeBefore (str ("***")) (pyStrip desc)) = a :: t :=
        List.exists_cons_of_ne_nil hne
      have ha : pyIsSpace a = false := pyStrip_head_not_space _ hat
      constructor
      · intro habs
        exfalso
        have : pyIsSpace a = true := by
          have hmem : a ∈ (pyStrip (takeBefore (str ("***")) (pyStrip desc))).take 50 := by
            rw [hat]
            exact List.mem_cons_self a _
          exact (List.all_eq_true.mp ((pyStrip_eq_nil_iff _).mp habs)) a hmem
        rw [this] at ha
        cases ha
      · intro habs
        rw [habs] at hat
        cases hat
    · rw [if_neg hlen]
  · intro hall
    have hd : pyStrip desc = [] := (pyStrip_eq_nil_iff desc).mpr hall
    rw [clean_merchant_name, hd]
    decide

theorem C4_witness :
    noPatternMatch (pyStrip (str ("NETFLIX.COM ***9999"))) ∧
    (clean_merchant_name (str ("NETFLIX.COM ***9999"))
        = defaultMerchant (pyStrip (str ("NETFLIX.COM ***9999"))) ∧
      (clean_merchant_name (str ("NETFLIX.COM ***9999")) = [] ↔
        pyStrip (takeBefore (str ("***")) (pyStrip (str ("NETFLIX.COM ***9999")))) = []) ∧
      ((str ("NETFLIX.COM ***9999")).all pyIsSpace = true →
        clean_merchant_name (str ("NETFLIX.COM ***9999")) = [])) :=
  ⟨⟨by decide, by decide, by decide, by decide, by decide, by decide⟩,
    C4_default_rule (str ("NETFLIX.COM ***9999"))
      ⟨by decide, by decide, by decide, by decide, by decide, by decide⟩⟩

/-- C6: the derived transaction type is `"Deposit"` exactly when the amount is
strictly positive; zero and negative amounts classify as `"Withdrawal"`. -/
theorem C6_transaction_type (a : ℚ) :
    (transaction_type a = "Deposit" ↔ 0 < a) ∧
    (transaction_type a = "Withdrawal" ↔ a ≤ 0) ∧
    transaction_type 0 = "Withdrawal" := by
  rw [transaction_type]
  by_cases h : 0 < a
  · rw [if_pos h]
    refine ⟨⟨fun _ => h, fun _ => rfl⟩,
      ⟨fun hw => absurd hw (by decide), fun hle => absurd h (not_lt.mpr hle)⟩, ?_⟩
    rw [transaction_type, if_neg (lt_irrefl 0)]
  · rw [if_neg h]
    refine ⟨⟨fun hw => absurd hw (by decide), fun hlt => absurd hlt h⟩,
      ⟨fun _ => not_lt.mp h, fun _ => rfl⟩, ?_⟩
    rw [transaction_type, if_neg (lt_irrefl 0)]

theorem C6_witness :
    (transaction_type 5 = "Deposit" ↔ (0 : ℚ) < 5) ∧
    (transaction_type 5 = "Withdrawal" ↔ (5 : ℚ) ≤ 0) ∧
    transaction_type 0 = "Withdrawal" :=
  C6_transaction_type 5

theorem mem_calculate_monthly_totals {rs : List Txn} {k : ℕ × ℕ} {st : MonthStat}
    (h : (k, st) ∈ calculate_monthly_totals rs) :
    k ∈ monthKeys rs ∧ st = monthlyTotalsFor (monthRecords rs k) := by
  rw [calculate_monthly_totals] at h
  obtain ⟨k', hk', heq⟩ := List.mem_map.mp h
  injection heq with h1 h2
  subst h1
  subst h2
  exact ⟨hk', rfl⟩

theorem mem_create_spending_report {rs : List Txn} {k : ℕ × ℕ} {rows : List MerchantRow}
    (h : (k, rows) ∈ create_spending_report rs) :
    k ∈ monthKeys rs ∧ spendingTxnsOf (monthRecords rs k) ≠ [] ∧
    rows = spendingReportRows (spendingTxnsOf (monthRecords rs k)) := by
  rw [create_spending_report] at h
  obtain ⟨k', hk', heq⟩ := List.mem_filterMap.mp h
  by_cases hz : (spendingTxnsOf (monthRecords rs k')).length = 0
  · rw [if_pos hz] at heq
    cases heq
  · rw [if_neg hz] at heq
    injection heq with heq2
    injection heq2 with h1 h2
    subst h1
    subst h2
    exact ⟨hk', fun hnil => hz (by rw [hnil]; rfl), rfl⟩

/-- C5: per month, deposits are the sum of the positive amounts, spending is
the absolute value of the sum of the negative amounts, net is exactly
deposits minus spending, and the transaction count is the number of posted
records of the month; only records with status `Posted` enter (every record
feeding the totals is posted, and prepending a pending record changes
nothing). -/
theorem C5_monthly_totals (rs : List Txn) :
    (∀ k st, (k, st) ∈ calculate_monthly_totals (clean_data rs) →
      st.deposits = (((monthRecords (clean_data rs) k).filter
          (fun r => decide (0 < r.amount))).map Txn.amount).sum ∧
      st.spending = |(((monthRecords (clean_data rs) k).filter
          (fun r => decide (r.amount < 0))).map Txn.amount).sum| ∧
      st.net = st.deposits - st.spending ∧
      st.transaction_count = (monthRecords (clean_data rs) k).length ∧
      ∀ r ∈ monthRecords (clean_data rs) k, r.status = "Posted") ∧
    (∀ t : Txn, t.status ≠ "Posted" →
      calculate_monthly_totals (clean_data (t :: rs))
        = calculate_monthly_totals (clean_data rs)) := by
  constructor
  · intro k st h
    obtain ⟨hk, hst⟩ := mem_calculate_monthly_totals h
    subst hst
    refine ⟨rfl, rfl, rfl, rfl, ?_⟩
    intro r hr
    have hr2 : r ∈ clean_data rs := List.mem_of_mem_filter hr
    exact of_decide_eq_true (List.mem_filter.mp hr2).2
  · intro t ht
    have hd : decide (t.status = "Posted") = false := decide_eq_false ht
    simp [clean_data, List.filter_cons, hd]

theorem C5_witness :
    (((2024, 3), monthlyTotalsFor (monthRecords (clean_data exMarch) (2024, 3)))
        ∈ calculate_monthly_totals (clean_data exMarch)) ∧
    (monthlyTotalsFor (monthRecords (clean_data exMarch) (2024, 3))).net
      = (monthlyTotalsFor (monthRecords (clean_data exMarch) (2024, 3))).deposits
        - (monthlyTotalsFor (monthRecords (clean_data exMarch) (2024, 3))).spending ∧
    calculate_monthly_totals (clean_data
        ({ year := 2024, month := 3, description := str ("X"), amount := -500,
           status := "Pending" } :: exMarch))
      = calculate_monthly_totals (clean_data exMarch) := by
  have hmem : ((2024, 3), monthlyTotalsFor (monthRecords (clean_data exMarch) (2024, 3)))
      ∈ calculate_monthly_totals (clean_data exMarch) := by
    have hclean : clean_data exMarch = exMarch := by
      simp [clean_data, exMarch, List.filter_cons]
    have hkeys : monthKeys exMarch = [(2024, 3)] := by decide
    rw [calculate_monthly_totals, hclean, hkeys]
    simp
  refine ⟨hmem, ?_, ?_⟩
  · exact ((C5_monthly_totals exMarch).1 (2024, 3) _ hmem).2.2.1
  · exact (C5_monthly_totals exMarch).2 _ (by decide)

theorem exMarch_clean : clean_data exMarch = exMarch := by
  simp [clean_data, exMarch, List.filter_cons]

theorem exMarch_month : monthRecords exMarch (2024, 3) = exMarch := by
  simp [monthRecords, exMarch, monthKey, List.filter_cons]

theorem exMarch_sdf : spendingTxnsOf exMarch
    = [{ year := 2024, month := 3, description := str ("UBER EATS ***1234"),
         amount := -4215/100, status := "Posted" },
       { year := 2024, month := 3, description := str ("NETFLIX.COM"),
         amount := -999/100, status := "Posted" }] := by
  norm_num [spendingTxnsOf, exMarch, List.filter_cons]

theorem exMarch_report :
    create_spending_report (clean_data exMarch)
      = [((2024, 3),
          [{ merchant := str ("Uber Eats"), total := 4215/100, count := 1 },
           { merchant := str ("NETFLIX.COM"), total := 999/100, count := 1 }])] := by
  have hc1 : clean_merchant_name (str ("UBER EATS ***1234")) = str ("Uber Eats") := by decide
  have hc2 : clean_merchant_name (str ("NETFLIX.COM")) = str ("NETFLIX.COM") := by decide
  have hkeys : monthKeys exMarch = [(2024, 3)] := by decide
  have hnames : merchantNames (spendingTxnsOf exMarch) = [str ("Uber Eats"), str ("NETFLIX.COM")] := by
    rw [exMarch_sdf, merchantNames]
    simp only [List.map_cons, List.map_nil, hc1, hc2]
    decide
  have hr1 : round2 (-(843/20)) = -(843/20) := round2_cents ⟨-4215, by norm_num⟩
  have hr2 : round2 (-(999/100)) = -(999/100) := round2_cents ⟨-999, by norm_num⟩
  have hne1 : str ("Uber Eats") ≠ str ("NETFLIX.COM") := by decide
  have hne2 : str ("NETFLIX.COM") ≠ str ("Uber Eats") := by decide
  have hrow1 : merchantRowOf (spendingTxnsOf exMarch) (str ("Uber Eats"))
      = { merchant := str ("Uber Eats"), total := 4215/100, count := 1 } := by
    rw [merchantRowOf, merchantGroup, exMarch_sdf]
    simp only [List.filter_cons, List.filter_nil, hc1, hc2]
    norm_num [hr1, hne1, hne2]
  have hrow2 : merchantRowOf (spendingTxnsOf exMarch) (str ("NETFLIX.COM"))
      = { merchant := str ("NETFLIX.COM"), total := 999/100, count := 1 } := by
    rw [merchantRowOf, merchantGroup, exMarch_sdf]
    simp only [List.filter_cons, List.filter_nil, hc1, hc2]
    norm_num [hr2, hne1, hne2]
  rw [exMarch_clean, create_spending_report, hkeys]
  rw [List.filterMap_cons, List.filterMap_nil]
  rw [exMarch_month]
  rw [if_neg (by rw [exMarch_sdf]; decide)]
  rw [spendingReportRows, hnames, List.map_cons, List.map_cons, List.map_nil,
    hrow1, hrow2]
  rw [List.insertionSort, List.insertionSort, List.insertionSort, List.orderedInsert,
    List.orderedInsert]
  norm_num [rowGE]

/-- C7: each month of the spending report restricts to the month's records
with negative amount, groups them by clean merchant (per merchant: total
equals the absolute value of the 2-decimal-rounded sum of amounts, count
equals the number of records), and lists merchants sorted by total
descending; a month with zero spending transactions is entirely absent from
the report while still appearing in the monthly totals. -/
theorem C7_spending_report (rs : List Txn) :
    (∀ k rows, (k, rows) ∈ create_spending_report (clean_data rs) →
      List.Pairwise rowGE rows ∧
      rows.Perm ((merchantNames (spendingTxnsOf (monthRecords (clean_data rs) k))).map
        (merchantRowOf (spendingTxnsOf (monthRecords (clean_data rs) k)))) ∧
      (∀ row ∈ rows,
        row.total = |round2 (((merchantGroup (spendingTxnsOf (monthRecords (clean_data rs) k))
            row.merchant).map Txn.amount).sum)| ∧
        row.count = (merchantGroup (spendingTxnsOf (monthRecords (clean_data rs) k))
            row.merchant).length) ∧
      ∀ r ∈ spendingTxnsOf (monthRecords (clean_data rs) k), r.amount < 0) ∧
    (∀ k, k ∈ monthKeys (clean_data rs) →
      spendingTxnsOf (monthRecords (clean_data rs) k) = [] →
      (∀ rows, (k, rows) ∉ create_spending_report (clean_data rs)) ∧
      ∃ st, (k, st) ∈ calculate_monthly_totals (clean_data rs)) := by
  constructor
  · intro k rows h
    obtain ⟨hk, hne, hrows⟩ := mem_create_spending_report h
    subst hrows
    refine ⟨List.sorted_insertionSort rowGE _, List.perm_insertionSort rowGE _, ?_, ?_⟩
    · intro row hrow
      have hmem : row ∈ (merchantNames (spendingTxnsOf (monthRecords (clean_data rs) k))).map
          (merchantRowOf (spendingTxnsOf (monthRecords (clean_data rs) k))) :=
        (List.mem_insertionSort rowGE).mp hrow
      obtain ⟨m, _, rfl⟩ := List.mem_map.mp hmem
      exact ⟨rfl, rfl⟩
    · intro r hr
      exact of_decide_eq_true (List.mem_filter.mp hr).2
  · intro k hk h0
    constructor
    · intro rows hmem
      obtain ⟨_, hne, _⟩ := mem_create_spending_report hmem
      exact hne h0
    · refine ⟨monthlyTotalsFor (monthRecords (clean_data rs) k), ?_⟩
      rw [calculate_monthly_totals]
      exact List.mem_map.mpr ⟨k, hk, rfl⟩

theorem C7_witness :
    ((((2024, 3),
        [{ merchant := str ("Uber Eats"), total := 4215/100, count := 1 },
         { merchant := str ("NETFLIX.COM"), total := 999/100, count := 1 }])
          ∈ create_spending_report (clean_data exMarch)) ∧
      List.Pairwise rowGE
        [{ merchant := str ("Uber Eats"), total := 4215/100, count := 1 },
         { merchant := str ("NETFLIX.COM"), total := 999/100, count := 1 }]) ∧
    ((2024, 3) ∈ monthKeys (clean_data exDeposit) ∧
      spendingTxnsOf (monthRecords (clean_data exDeposit) (2024, 3)) = [] ∧
      (∀ rows, ((2024, 3), rows) ∉ create_spending_report (clean_data exDeposit)) ∧
      ∃ st, ((2024, 3), st) ∈ calculate_monthly_totals (clean_data exDeposit)) := by
  have hmem : (((2024, 3),
      [{ merchant := str ("Uber Eats"), total := 4215/100, count := 1 },
       { merchant := str ("NETFLIX.COM"), total := 999/100, count := 1 }]) :
        (ℕ × ℕ) × List MerchantRow)
      ∈ create_spending_report (clean_data exMarch) := by
    rw [exMarch_report]
    exact List.mem_singleton_self _
  have hcleanD : clean_data exDeposit = exDeposit := by
    simp [clean_data, exDeposit, List.filter_cons]
  have hkD : (2024, 3) ∈ monthKeys (clean_data exDeposit) := by
    rw [hcleanD]
    decide
  have h0D : spendingTxnsOf (monthRecords (clean_data exDeposit) (2024, 3)) = [] := by
    rw [hcleanD]
    norm_num [spendingTxnsOf, monthRecords, exDeposit, monthKey, List.filter_cons]
  refine ⟨⟨hmem, ?_⟩, hkD, h0D, ?_, ?_⟩
  · exact (((C7_spending_report exMarch).1 _ _ hmem).1)
  · exact (((C7_spending_report exDeposit).2 _ hkD h0D).1)
  · exact (((C7_spending_report exDeposit).2 _ hkD h0D).2)

theorem merchantNames_sum_lt {sdf : List Txn}
    (hneg : ∀ r ∈ sdf, r.amount < 0) :
    ∀ m ∈ merchantNames sdf, (((merchantGroup sdf m).map Txn.amount).sum) < 0 := by
  intro m hm
  obtain ⟨r, hr, hkey⟩ : ∃ r ∈ sdf, clean_merchant_name r.description = m := by
    have hmm : m ∈ sdf.map (fun r => clean_merchant_name r.description) :=
      List.mem_dedup.mp hm
    obtain ⟨r, hr, hrm⟩ := List.mem_map.mp hmm
    exact ⟨r, hr, hrm⟩
  have hrg : r ∈ merchantGroup sdf m :=
    List.mem_filter.mpr ⟨hr, decide_eq_true hkey⟩
  apply sum_neg_of_all_neg
  · intro x hx
    obtain ⟨t, ht, rfl⟩ := List.mem_map.mp hx
    exact hneg t (List.mem_of_mem_filter ht)
  · exact List.ne_nil_of_mem (List.mem_map_of_mem Txn.amount hrg)

theorem spendingTxns_all_neg (ms : List Txn) :
    ∀ r ∈ spendingTxnsOf ms, r.amount < 0 := by
  intro r hr
  exact of_decide_eq_true (List.mem_filter.mp hr).2

/-- C8: for every month appearing in both reports, the sum of the
per-merchant `total` values differs from the month's `spending` value by at
most 0.01 per merchant, accumulating over the month's merchants. -/
theorem C8_totals_sum_matches_spending (rs : List Txn) (k : ℕ × ℕ)
    (rows : List MerchantRow) (st : MonthStat)
    (h1 : (k, rows) ∈ create_spending_report (clean_data rs))
    (h2 : (k, st) ∈ calculate_monthly_totals (clean_data rs)) :
    |(rows.map MerchantRow.total).sum - st.spending| ≤ rows.length * (1 / 100) := by
  obtain ⟨hk, hne, hrows⟩ := mem_create_spending_report h1
  obtain ⟨_, hst⟩ := mem_calculate_monthly_totals h2
  subst hrows
  subst hst
  have hperm : (spendingReportRows (spendingTxnsOf (monthRecords (clean_data rs) k))).Perm
      ((merchantNames (spendingTxnsOf (monthRecords (clean_data rs) k))).map
        (merchantRowOf (spendingTxnsOf (monthRecords (clean_data rs) k)))) :=
    List.perm_insertionSort _ _
  set sdf := spendingTxnsOf (monthRecords (clean_data rs) k) with hsdf
  have hallneg : ∀ r ∈ sdf, r.amount < 0 := spendingTxns_all_neg _
  have hsum1 : ((spendingReportRows sdf).map MerchantRow.total).sum
      = (((merchantNames sdf).map (merchantRowOf sdf)).map MerchantRow.total).sum :=
    (hperm.map MerchantRow.total).sum_eq
  have hlen : (spendingReportRows sdf).length = (merchantNames sdf).length := by
    rw [hperm.length_eq, List.length_map]
  have hmm : ((merchantNames sdf).map (merchantRowOf sdf)).map MerchantRow.total
      = (merchantNames sdf).map
          (fun m => |round2 (((merchantGroup sdf m).map Txn.amount).sum)|) := by
    rw [List.map_map]
    rfl
  have hneg := merchantNames_sum_lt hallneg
  have herr : ∀ m ∈ merchantNames sdf,
      abs (|round2 (((merchantGroup sdf m).map Txn.amount).sum)|
        - |((merchantGroup sdf m).map Txn.amount).sum|) ≤ 1 / 100 := by
    intro m _
    calc abs (|round2 (((merchantGroup sdf m).map Txn.amount).sum)|
          - |((merchantGroup sdf m).map Txn.amount).sum|)
        ≤ |round2 (((merchantGroup sdf m).map Txn.amount).sum)
            - ((merchantGroup sdf m).map Txn.amount).sum| :=
          abs_abs_sub_abs_le_abs_sub _ _
      _ ≤ 1 / 200 := abs_round2_sub_le _
      _ ≤ 1 / 100 := by norm_num
  have hbound := abs_sum_map_sub_le (merchantNames sdf)
    (fun m => |round2 (((merchantGroup sdf m).map Txn.amount).sum)|)
    (fun m => |((merchantGroup sdf m).map Txn.amount).sum|) (1 / 100) herr
  have habs : ((merchantNames sdf).map
        (fun m => |((merchantGroup sdf m).map Txn.amount).sum|)).sum
      = -(((merchantNames sdf).map
          (fun m => ((merchantGroup sdf m).map Txn.amount).sum)).sum) :=
    sum_map_abs_of_nonpos _ _ (fun m hm => le_of_lt (hneg m hm))
  have hpart : ((merchantNames sdf).map
        (fun m => ((merchantGroup sdf m).map Txn.amount).sum)).sum
      = (sdf.map Txn.amount).sum := by
    apply sum_filter_key (fun r => clean_merchant_name r.description) Txn.amount sdf
      (merchantNames sdf) (List.nodup_dedup _)
    intro x hx
    exact List.mem_dedup.mpr (List.mem_map_of_mem _ hx)
  have hsdfneg : (sdf.map Txn.amount).sum < 0 := by
    apply sum_neg_of_all_neg
    · intro x hx
      obtain ⟨t, ht, rfl⟩ := List.mem_map.mp hx
      exact hallneg t ht
    · intro habs2
      exact hne (by rwa [List.map_eq_nil_iff] at habs2)
  have hspend : (monthlyTotalsFor (monthRecords (clean_data rs) k)).spending
      = -((sdf.map Txn.amount).sum) := by
    show |(sdf.map Txn.amount).sum| = -((sdf.map Txn.amount).sum)
    exact abs_of_neg hsdfneg
  rw [hsum1, hmm, hspend, ← hpart, ← habs, hlen]
  exact hbound

theorem exMarch_totals :
    calculate_monthly_totals (clean_data exMarch)
      = [((2024, 3),
          { deposits := 1500, spending := 2607/50, net := 72393/50,
            transaction_count := 3 })] := by
  have hclean : clean_data exMarch = exMarch := by
    simp [clean_data, exMarch, List.filter_cons]
  have hkeys : monthKeys exMarch = [(2024, 3)] := by decide
  have hmonth : monthRecords exMarch (2024, 3) = exMarch := by
    simp [monthRecords, exMarch, monthKey, List.filter_cons]
  rw [hclean, calculate_monthly_totals, hkeys, List.map_cons, List.map_nil, hmonth]
  rw [monthlyTotalsFor]
  norm_num [exMarch, spendingTxnsOf, List.filter_cons, MonthStat.mk.injEq]
  rw [abs_of_pos (by norm_num : (0 : ℚ) < 2607 / 50)]
  norm_num

theorem C8_witness :
    ((((2024, 3),
        [{ merchant := str ("Uber Eats"), total := 4215/100, count := 1 },
         { merchant := str ("NETFLIX.COM"), total := 999/100, count := 1 }])
          ∈ create_spending_report (clean_data exMarch)) ∧
      (((2024, 3),
        ({ deposits := 1500, spending := 2607/50, net := 72393/50,
           transaction_count := 3 } : MonthStat))
          ∈ calculate_monthly_totals (clean_data exMarch))) ∧
    |(([{ merchant := str ("Uber Eats"), total := 4215/100, count := 1 },
        { merchant := str ("NETFLIX.COM"), total := 999/100, count := 1 }]).map
          MerchantRow.total).sum
      - ({ deposits := 1500, spending := 2607/50, net := 72393/50,
           transaction_count := 3 } : MonthStat).spending|
      ≤ (([{ merchant := str ("Uber Eats"), total := 4215/100, count := 1 },
           { merchant := str ("NETFLIX.COM"), total := 999/100, count := 1 }]
            : List MerchantRow).length : ℚ) * (1 / 100) := by
  have m1 : (((2024, 3),
      [{ merchant := str ("Uber Eats"), total := 4215/100, count := 1 },
       { merchant := str ("NETFLIX.COM"), total := 999/100, count := 1 }]) :
        (ℕ × ℕ) × List MerchantRow)
      ∈ create_spending_report (clean_data exMarch) := by
    rw [exMarch_report]
    exact List.mem_singleton_self _
  have m2 : (((2024, 3),
      ({ deposits := 1500, spending := 2607/50, net := 72393/50,
         transaction_count := 3 } : MonthStat)) : (ℕ × ℕ) × MonthStat)
      ∈ calculate_monthly_totals (clean_data exMarch) := by
    rw [exMarch_totals]
    exact List.mem_singleton_self _
  exact ⟨⟨m1, m2⟩, C8_totals_sum_matches_spending exMarch (2024, 3) _ _ m1 m2⟩

theorem ratFloor_eq (x : ℚ) (z : ℤ) (h1 : (z : ℚ) ≤ x) (h2 : x < z + 1) :
    ratFloor x = z := by
  obtain ⟨hb1, hb2⟩ := ratFloor_bounds x
  have i1 : (z : ℚ) < ratFloor x + 1 := lt_of_le_of_lt h1 hb2
  have i2 : (ratFloor x : ℚ) < z + 1 := lt_of_le_of_lt hb1 h2
  have j1 : z < ratFloor x + 1 := by exact_mod_cast i1
  have j2 : ratFloor x < z + 1 := by exact_mod_cast i2
  omega

theorem report_month_total_pos (rs : List Txn) (k : ℕ × ℕ) (rows : List MerchantRow)
    (hc : ∀ t ∈ rs, Cents t.amount)
    (h : (k, rows) ∈ create_spending_report (clean_data rs)) :
    0 < monthTotalOf rows := by
  obtain ⟨hk, hne, hrows⟩ := mem_create_spending_report h
  subst hrows
  set sdf := spendingTxnsOf (monthRecords (clean_data rs) k) with hsdf
  have hallneg : ∀ r ∈ sdf, r.amount < 0 := spendingTxns_all_neg _
  have hcents : ∀ r ∈ sdf, Cents r.amount := by
    intro r hr
    exact hc r (List.mem_of_mem_filter (List.mem_of_mem_filter
      (List.mem_of_mem_filter hr)))
  have hperm : (spendingReportRows sdf).Perm
      ((merchantNames sdf).map (merchantRowOf sdf)) :=
    List.perm_insertionSort _ _
  rw [monthTotalOf, (hperm.map MerchantRow.total).sum_eq, List.map_map]
  apply List.sum_pos
  · intro x hx
    obtain ⟨m, hm, rfl⟩ := List.mem_map.mp hx
    show 0 < |round2 (((merchantGroup sdf m).map Txn.amount).sum)|
    have hSneg := merchantNames_sum_lt hallneg m hm
    have hScents : Cents (((merchantGroup sdf m).map Txn.amount).sum) := by
      apply cents_sum
      intro a ha
      obtain ⟨t, ht, rfl⟩ := List.mem_map.mp ha
      exact hcents t (List.mem_of_mem_filter ht)
    rw [round2_cents hScents]
    exact abs_pos.mpr (ne_of_lt hSneg)
  · intro habs
    apply hne
    have h1 : merchantNames sdf = [] := List.map_eq_nil_iff.mp habs
    rw [merchantNames] at h1
    exact List.map_eq_nil_iff.mp ((List.dedup_eq_nil _).mp h1)

/-- C10 counterexample: with a single posted transaction of -0.004 dollars the
month appears in the spending report, but its merchant total rounds to 0.00,
so the percentage denominator (the sum of the rounded per-merchant totals) is
zero, not strictly positive: the percentage division is a division by zero. -/
theorem C10_counterexample :
    create_spending_report (clean_data exTiny)
      = [((2024, 5), [{ merchant := str ("ZZZ"), total := 0, count := 1 }])] ∧
    ¬ (0 < monthTotalOf [{ merchant := str ("ZZZ"), total := 0, count := 1 }]) := by
  constructor
  · have hc1 : clean_merchant_name (str ("ZZZ")) = str ("ZZZ") := by decide
    have hclean : clean_data exTiny = exTiny := by
      simp [clean_data, exTiny, List.filter_cons]
    have hkeys : monthKeys exTiny = [(2024, 5)] := by decide
    have hmonth : monthRecords exTiny (2024, 5) = exTiny := by
      simp [monthRecords, exTiny, monthKey, List.filter_cons]
    have hsdf : spendingTxnsOf exTiny = exTiny := by
      norm_num [spendingTxnsOf, exTiny, List.filter_cons]
    have hfloor : ratFloor (-(2/5) : ℚ) = -1 :=
      ratFloor_eq _ (-1) (by norm_num) (by norm_num)
    have hround : round2 (-(1/250) : ℚ) = 0 := by
      rw [round2, roundTo, show (-(1/250) : ℚ) * 10 ^ 2 = -(2/5) by norm_num,
        roundHalfEven, hfloor]
      norm_num
    have hnames : merchantNames (spendingTxnsOf exTiny) = [str ("ZZZ")] := by
      rw [hsdf, merchantNames]
      simp only [exTiny, List.map_cons, List.map_nil, hc1]
      decide
    have hrow : merchantRowOf (spendingTxnsOf exTiny) (str ("ZZZ"))
        = { merchant := str ("ZZZ"), total := 0, count := 1 } := by
      rw [merchantRowOf, merchantGroup, hsdf]
      simp only [exTiny, List.filter_cons, List.filter_nil, hc1]
      norm_num [hround]
    rw [hclean, create_spending_report, hkeys, List.filterMap_cons, List.filterMap_nil,
      hmonth]
    rw [if_neg (by rw [hsdf]; simp [exTiny])]
    rw [spendingReportRows, hnames, List.map_cons, List.map_nil, hrow]
    rfl
  · norm_num [monthTotalOf]

/-- C10 (amended): provided every transaction amount is a whole number of
cents, the denominator used for percentage-of-month — the sum of the month's
rounded per-merchant totals — is strictly positive for every month present in
the spending report, so the percentage divisions never divide by zero. -/
theorem C10_denominator_pos (rs : List Txn) (k : ℕ × ℕ) (rows : List MerchantRow)
    (hc : ∀ t ∈ rs, Cents t.amount)
    (h : (k, rows) ∈ create_spending_report (clean_data rs)) :
    0 < monthTotalOf rows :=
  report_month_total_pos rs k rows hc h

theorem C10_witness :
    (∀ t ∈ exMarch, Cents t.amount) ∧
    ((((2024, 3),
        [{ merchant := str ("Uber Eats"), total := 4215/100, count := 1 },
         { merchant := str ("NETFLIX.COM"), total := 999/100, count := 1 }])
          ∈ create_spending_report (clean_data exMarch)) ∧
      0 < monthTotalOf
        [{ merchant := str ("Uber Eats"), total := 4215/100, count := 1 },
         { merchant := str ("NETFLIX.COM"), total := 999/100, count := 1 }]) := by
  have hc : ∀ t ∈ exMarch, Cents t.amount := by
    intro t ht
    simp only [exMarch, List.mem_cons, List.not_mem_nil, or_false] at ht
    rcases ht with rfl | rfl | rfl
    · exact ⟨150000, by norm_num⟩
    · exact ⟨-4215, by norm_num⟩
    · exact ⟨-999, by norm_num⟩
  have m1 : (((2024, 3),
      [{ merchant := str ("Uber Eats"), total := 4215/100, count := 1 },
       { merchant := str ("NETFLIX.COM"), total := 999/100, count := 1 }]) :
        (ℕ × ℕ) × List MerchantRow)
      ∈ create_spending_report (clean_data exMarch) := by
    rw [exMarch_report]
    exact List.mem_singleton_self _
  exact ⟨hc, m1, C10_denominator_pos exMarch (2024, 3) _ hc m1⟩

theorem pct_sum_bound (xs : List ℚ) (T : ℚ) (hT : T ≠ 0) (hsum : xs.sum = T) :
    |(xs.map (fun x => round1 (x / T * 100))).sum - 100| ≤ xs.length * (1 / 20) := by
  have herr : ∀ x ∈ xs, |round1 (x / T * 100) - x / T * 100| ≤ 1 / 20 :=
    fun x _ => abs_round1_sub_le _
  have hb := abs_sum_map_sub_le xs (fun x => round1 (x / T * 100))
    (fun x => x / T * 100) (1 / 20) herr
  have hsum2 : (xs.map (fun x => x / T * 100)).sum = 100 := by
    have h1 : xs.map (fun x => x / T * 100) = xs.map (fun x => id x * (100 / T)) := by
      apply List.map_congr_left
      intro x _
      rw [id]
      ring
    rw [h1, List.sum_map_mul_right, List.map_id, hsum]
    field_simp
  calc |(xs.map (fun x => round1 (x / T * 100))).sum - 100|
      = |(xs.map (fun x => round1 (x / T * 100))).sum - (xs.map (fun x => x / T * 100)).sum| := by
        rw [hsum2]
    _ ≤ xs.length * (1 / 20) := hb

/-- C2 (amended): for each month of the spending report (with cent-valued
amounts, so the denominator is nonzero), the reported percentage of a row is
`total / month_total * 100` rounded to 1 decimal place, both in the export
and in the display (top-10 plus ("others") row); each month's percentages sum
to 100 within 0.05 per reported row, accumulating — not within the fixed 0.1
of the original claim. -/
theorem C2_percentage_of_month (rs : List Txn) (k : ℕ × ℕ) (rows : List MerchantRow)
    (hc : ∀ t ∈ rs, Cents t.amount)
    (h : (k, rows) ∈ create_spending_report (clean_data rs)) :
    exportPcts rows = rows.map (fun r => round1 (r.total / monthTotalOf rows * 100)) ∧
    |(exportPcts rows).sum - 100| ≤ rows.length * (1 / 20) ∧
    |(displayPcts rows).sum - 100| ≤ (displayPcts rows).length * (1 / 20) := by
  have hT : 0 < monthTotalOf rows := report_month_total_pos rs k rows hc h
  have hexp : exportPcts rows
      = (rows.map MerchantRow.total).map (fun x => round1 (x / monthTotalOf rows * 100)) := by
    rw [exportPcts, List.map_map]
    rfl
  refine ⟨rfl, ?_, ?_⟩
  · rw [hexp, show rows.length = (rows.map MerchantRow.total).length from
      (List.length_map rows MerchantRow.total).symm]
    exact pct_sum_bound _ _ (ne_of_gt hT) rfl
  · rw [displayPcts]
    by_cases h10 : 10 < rows.length
    · rw [if_pos h10]
      have hxs : ((rows.take 10).map (fun r => pctOf r.total (monthTotalOf rows)))
            ++ [pctOf (((rows.drop 10).map MerchantRow.total).sum) (monthTotalOf rows)]
          = (((rows.take 10).map MerchantRow.total)
              ++ [((rows.drop 10).map MerchantRow.total).sum]).map
                (fun x => round1 (x / monthTotalOf rows * 100)) := by
        rw [List.map_append, List.map_map]
        rfl
      rw [hxs]
      have hsum : ((((rows.take 10).map MerchantRow.total)
            ++ [((rows.drop 10).map MerchantRow.total).sum])).sum = monthTotalOf rows := by
        rw [List.sum_append, List.sum_singleton, List.map_take, List.map_drop]
        rw [List.sum_take_add_sum_drop]
        rfl
      rw [List.length_map]
      exact pct_sum_bound _ _ (ne_of_gt hT) hsum
    · rw [if_neg h10]
      have htake : rows.take 10 = rows := List.take_of_length_le (le_of_not_lt h10)
      rw [htake]
      have hmm2 : rows.map (fun r => pctOf r.total (monthTotalOf rows))
          = (rows.map MerchantRow.total).map
              (fun x => round1 (x / monthTotalOf rows * 100)) := by
        rw [List.map_map]
        rfl
      rw [hmm2, List.length_map, show (rows.map MerchantRow.total).length = rows.length from
        List.length_map rows MerchantRow.total]
      rw [show rows.length = (rows.map MerchantRow.total).length from
        (List.length_map rows MerchantRow.total).symm]
      exact pct_sum_bound _ _ (ne_of_gt hT) rfl

theorem exPct_report :
    create_spending_report (clean_data exPct)
      = [((2024, 3),
          [{ merchant := str ("DDD"), total := 229/4, count := 1 },
           { merchant := str ("AAA"), total := 57/4, count := 1 },
           { merchant := str ("BBB"), total := 57/4, count := 1 },
           { merchant := str ("CCC"), total := 57/4, count := 1 }])] := by
  have hcA : clean_merchant_name (str ("AAA")) = str ("AAA") := by decide
  have hcB : clean_merchant_name (str ("BBB")) = str ("BBB") := by decide
  have hcC : clean_merchant_name (str ("CCC")) = str ("CCC") := by decide
  have hcD : clean_merchant_name (str ("DDD")) = str ("DDD") := by decide
  have hclean : clean_data exPct = exPct := by
    simp [clean_data, exPct, List.filter_cons]
  have hkeys : monthKeys exPct = [(2024, 3)] := by decide
  have hmonth : monthRecords exPct (2024, 3) = exPct := by
    simp [monthRecords, exPct, monthKey, List.filter_cons]
  have hsdf : spendingTxnsOf exPct = exPct := by
    norm_num [spendingTxnsOf, exPct, List.filter_cons]
  have hnames : merchantNames (spendingTxnsOf exPct)
      = [str ("AAA"), str ("BBB"), str ("CCC"), str ("DDD")] := by
    rw [hsdf, merchantNames]
    simp only [exPct, List.map_cons, List.map_nil, hcA, hcB, hcC, hcD]
    decide
  have hrA : round2 (-(57/4)) = -(57/4) := round2_cents ⟨-1425, by norm_num⟩
  have hrD : round2 (-(229/4)) = -(229/4) := round2_cents ⟨-5725, by norm_num⟩
  have hneq : ∀ x y : String, x ≠ y → str x ≠ str y := by
    intro x y hxy habs
    exact hxy (by
      have := congrArg (fun l : List Char => String.mk l) habs
      simpa [str] using this)
  have hrowA : merchantRowOf (spendingTxnsOf exPct) (str ("AAA"))
      = { merchant := str ("AAA"), total := 57/4, count := 1 } := by
    rw [merchantRowOf, merchantGroup, hsdf]
    simp only [exPct, List.filter_cons, List.filter_nil, hcA, hcB, hcC, hcD]
    norm_num [hrA, hneq ("BBB") "AAA" (by decide), hneq ("CCC") "AAA" (by decide),
      hneq ("DDD") "AAA" (by decide)]
  have hrowB : merchantRowOf (spendingTxnsOf exPct) (str ("BBB"))
      = { merchant := str ("BBB"), total := 57/4, count := 1 } := by
    rw [merchantRowOf, merchantGroup, hsdf]
    simp only [exPct, List.filter_cons, List.filter_nil, hcA, hcB, hcC, hcD]
    norm_num [hrA, hneq ("AAA") "BBB" (by decide), hneq ("CCC") "BBB" (by decide),
      hneq ("DDD") "BBB" (by decide)]
  have hrowC : merchantRowOf (spendingTxnsOf exPct) (str ("CCC"))
      = { merchant := str ("CCC"), total := 57/4, count := 1 } := by
    rw [merchantRowOf, merchantGroup, hsdf]
    simp only [exPct, List.filter_cons, List.filter_nil, hcA, hcB, hcC, hcD]
    norm_num [hrA, hneq ("AAA") "CCC" (by decide), hneq ("BBB") "CCC" (by decide),
      hneq ("DDD") "CCC" (by decide)]
  have hrowD : merchantRowOf (spendingTxnsOf exPct) (str ("DDD"))
      = { merchant := str ("DDD"), total := 229/4, count := 1 } := by
    rw [merchantRowOf, merchantGroup, hsdf]
    simp only [exPct, List.filter_cons, List.filter_nil, hcA, hcB, hcC, hcD]
    norm_num [hrD, hneq ("AAA") "DDD" (by decide), hneq ("BBB") "DDD" (by decide),
      hneq ("CCC") "DDD" (by decide)]
  rw [hclean, create_spending_report, hkeys, List.filterMap_cons, List.filterMap_nil,
    hmonth]
  rw [if_neg (by rw [hsdf]; simp [exPct])]
  rw [spendingReportRows, hnames, List.map_cons, List.map_cons, List.map_cons,
    List.map_cons, List.map_nil, hrowA, hrowB, hrowC, hrowD]
  norm_num [List.insertionSort, List.orderedInsert, rowGE]

/-- C2 counterexample: with four posted spending rows of -14.25, -14.25,
-14.25 and -57.25 in one month, each percentage (14.25 and 57.25) rounds down
to the even tenth by exactly 0.05, so the exported percentages sum to 99.8 —
off by 0.2, outside the claimed 0.1 absolute tolerance. -/
theorem C2_counterexample :
    ((create_spending_report (clean_data exPct)).map (fun p => (exportPcts p.2).sum))
      = [499/5] ∧
    ¬ (|(499 : ℚ)/5 - 100| ≤ 1/10) := by
  constructor
  · rw [exPct_report, List.map_cons, List.map_nil]
    have hT : monthTotalOf
        [{ merchant := str ("DDD"), total := 229/4, count := 1 },
         { merchant := str ("AAA"), total := 57/4, count := 1 },
         { merchant := str ("BBB"), total := 57/4, count := 1 },
         { merchant := str ("CCC"), total := 57/4, count := 1 }] = 100 := by
      norm_num [monthTotalOf]
    have hpcD : pctOf (229/4 : ℚ) 100 = 286/5 := by
      rw [pctOf, show (229/4 : ℚ) / 100 * 100 = 1145/2 * (1/10) by norm_num]
      rw [round1, roundTo, show (1145/2 : ℚ) * (1/10) * 10 ^ 1 = 1145/2 by norm_num]
      rw [roundHalfEven, ratFloor_eq (1145/2 : ℚ) 572 (by norm_num) (by norm_num)]
      norm_num
    have hpcA : pctOf (57/4 : ℚ) 100 = 71/5 := by
      rw [pctOf, show (57/4 : ℚ) / 100 * 100 = 285/2 * (1/10) by norm_num]
      rw [round1, roundTo, show (285/2 : ℚ) * (1/10) * 10 ^ 1 = 285/2 by norm_num]
      rw [roundHalfEven, ratFloor_eq (285/2 : ℚ) 142 (by norm_num) (by norm_num)]
      norm_num
    rw [exportPcts, hT]
    simp only [List.map_cons, List.map_nil, hpcD, hpcA]
    norm_num
  · rw [show (499 : ℚ)/5 - 100 = -(1/5) by norm_num, abs_neg,
      abs_of_pos (by norm_num : (0 : ℚ) < 1/5)]
    norm_num

theorem C2_witness :
    (∀ t ∈ exMarch, Cents t.amount) ∧
    ((((2024, 3),
        [{ merchant := str ("Uber Eats"), total := 4215/100, count := 1 },
         { merchant := str ("NETFLIX.COM"), total := 999/100, count := 1 }])
          ∈ create_spending_report (clean_data exMarch)) ∧
      (exportPcts
          [{ merchant := str ("Uber Eats"), total := 4215/100, count := 1 },
           { merchant := str ("NETFLIX.COM"), total := 999/100, count := 1 }]
        = (([{ merchant := str ("Uber Eats"), total := 4215/100, count := 1 },
             { merchant := str ("NETFLIX.COM"), total := 999/100, count := 1 }]
              : List MerchantRow)).map
            (fun r => round1 (r.total / monthTotalOf
              [{ merchant := str ("Uber Eats"), total := 4215/100, count := 1 },
               { merchant := str ("NETFLIX.COM"), total := 999/100, count := 1 }] * 100)) ∧
        |(exportPcts
            [{ merchant := str ("Uber Eats"), total := 4215/100, count := 1 },
             { merchant := str ("NETFLIX.COM"), total := 999/100, count := 1 }]).sum - 100|
          ≤ (([{ merchant := str ("Uber Eats"), total := 4215/100, count := 1 },
               { merchant := str ("NETFLIX.COM"), total := 999/100, count := 1 }]
                : List MerchantRow).length : ℚ) * (1 / 20) ∧
        |(displayPcts
            [{ merchant := str ("Uber Eats"), total := 4215/100, count := 1 },
             { merchant := str ("NETFLIX.COM"), total := 999/100, count := 1 }]).sum - 100|
          ≤ ((displayPcts
              [{ merchant := str ("Uber Eats"), total := 4215/100, count := 1 },
               { merchant := str ("NETFLIX.COM"), total := 999/100, count := 1 }]).length : ℚ)
            * (1 / 20))) := by
  have hc : ∀ t ∈ exMarch, Cents t.amount := by
    intro t ht
    simp only [exMarch, List.mem_cons, List.not_mem_nil, or_false] at ht
    rcases ht with rfl | rfl | rfl
    · exact ⟨150000, by norm_num⟩
    · exact ⟨-4215, by norm_num⟩
    · exact ⟨-999, by norm_num⟩
  have m1 : (((2024, 3),
      [{ merchant := str ("Uber Eats"), total := 4215/100, count := 1 },
       { merchant := str ("NETFLIX.COM"), total := 999/100, count := 1 }]) :
        (ℕ × ℕ) × List MerchantRow)
      ∈ create_spending_report (clean_data exMarch) := by
    rw [exMarch_report]
    exact List.mem_singleton_self _
  exact ⟨hc, m1, C2_percentage_of_month exMarch (2024, 3) _ hc m1⟩

theorem lexLe_total (s t : List Char) : lexLe s t = true ∨ lexLe t s = true := by
  induction s generalizing t with
  | nil => left; rfl
  | cons a as ih =>
    cases t with
    | nil => right; rfl
    | cons b bs =>
      simp only [lexLe]
      by_cases h1 : a.toNat < b.toNat
      · left; rw [if_pos h1]
      · by_cases h2 : b.toNat < a.toNat
        · right; rw [if_pos h2]
        · rw [if_neg h1, if_neg h2, if_neg h2, if_neg h1]
          exact ih bs

theorem lexLe_trans (s t u : List Char) (h1 : lexLe s t = true)
    (h2 : lexLe t u = true) : lexLe s u = true := by
  induction s generalizing t u with
  | nil => rfl
  | cons a as ih =>
    cases t with
    | nil => simp [lexLe] at h1
    | cons b bs =>
      cases u with
      | nil => simp [lexLe] at h2
      | cons c cs =>
        simp only [lexLe] at h1 h2 ⊢
        by_cases hab : a.toNat < b.toNat
        · by_cases hbc : b.toNat < c.toNat
          · rw [if_pos (by omega : a.toNat < c.toNat)]
          · rw [if_neg hbc] at h2
            by_cases hcb : c.toNat < b.toNat
            · rw [if_pos hcb] at h2
              simp at h2
            · rw [if_pos (by omega : a.toNat < c.toNat)]
        · rw [if_neg hab] at h1
          by_cases hba : b.toNat < a.toNat
          · rw [if_pos hba] at h1
            simp at h1
          · rw [if_neg hba] at h1
            by_cases hbc : b.toNat < c.toNat
            · rw [if_pos (by omega : a.toNat < c.toNat)]
            · rw [if_neg hbc] at h2
              by_cases hcb : c.toNat < b.toNat
              · rw [if_pos hcb] at h2
                simp at h2
              · rw [if_neg hcb] at h2
                rw [if_neg (by omega : ¬ a.toNat < c.toNat),
                  if_neg (by omega : ¬ c.toNat < a.toNat)]
                exact ih bs cs h1 h2

theorem parseDigit_digitChar (d : ℕ) : parseDigit (digitChar d) = some (d % 10) := by
  have hb : ∀ e, e < 10 → parseDigit (digitChar e) = some e := by decide
  have h2 : (d % 10) % 10 = d % 10 := by omega
  have h1 : digitChar d = digitChar (d % 10) := by
    rw [digitChar, digitChar, h2]
  rw [h1, hb (d % 10) (by omega)]

theorem parse_renderMonthKey (y m : ℕ) (hy : y < 10000) (hm : m < 100) :
    parseMonthKey (renderMonthKey (y, m)) = some (y, m) := by
  show parseMonthKey
    [digitChar (y / 1000), digitChar (y / 100), digitChar (y / 10), digitChar y,
      '-', digitChar (m / 10), digitChar m] = some (y, m)
  simp only [parseMonthKey, parseDigit_digitChar, if_pos rfl, if_true]
  rw [Option.some.injEq, Prod.mk.injEq]
  constructor <;> omega

theorem filterMap_eq_self {α : Type} (f : α → Option α) (l : List α)
    (h : ∀ x ∈ l, f x = some x) : l.filterMap f = l := by
  induction l with
  | nil => rfl
  | cons a t ih =>
    rw [List.filterMap_cons, h a (List.mem_cons_self a t)]
    show a :: List.filterMap f t = a :: t
    rw [ih (fun x hx => h x (List.mem_cons_of_mem _ hx))]

/-- C9: exporting the monthly summary renders each month as `"YYYY-MM"`,
sorts the rows ascending by that string, and re-parsing the exported rows
recovers exactly the per-month deposits, spending, net and transaction-count
values used to generate them (as a permutation of the original keyed stats). -/
theorem C9_export_roundtrip (stats : List ((ℕ × ℕ) × MonthStat))
    (hv : ∀ p ∈ stats, p.1.1 < 10000 ∧ p.1.2 < 100) :
    (parse_monthly_summary (export_monthly_summary stats)).Perm stats ∧
    (export_monthly_summary stats).Pairwise
      (fun a b => lexLe a.month b.month = true) := by
  constructor
  · have hperm : (export_monthly_summary stats).Perm
        (stats.map (fun p =>
          ({ month := renderMonthKey p.1, deposits := p.2.deposits,
             spending := p.2.spending, net := p.2.net,
             transaction_count := p.2.transaction_count } : SummaryRow))) :=
      List.perm_insertionSort _ _
    have h1 := hperm.filterMap (fun r =>
      (parseMonthKey r.month).map (fun k =>
        (k, ({ deposits := r.deposits, spending := r.spending, net := r.net,
               transaction_count := r.transaction_count } : MonthStat))))
    have h2 : List.filterMap (fun r =>
        (parseMonthKey r.month).map (fun k =>
          (k, ({ deposits := r.deposits, spending := r.spending, net := r.net,
                 transaction_count := r.transaction_count } : MonthStat))))
        (stats.map (fun p =>
          ({ month := renderMonthKey p.1, deposits := p.2.deposits,
             spending := p.2.spending, net := p.2.net,
             transaction_count := p.2.transaction_count } : SummaryRow))) = stats := by
      rw [List.filterMap_map]
      apply filterMap_eq_self
      intro p hp
      obtain ⟨hy, hm⟩ := hv p hp
      rcases p with ⟨⟨y, m⟩, st⟩
      show (parseMonthKey (renderMonthKey (y, m))).map _ = _
      rw [parse_renderMonthKey y m hy hm]
      rfl
    rw [h2] at h1
    exact h1
  · haveI : IsTrans SummaryRow (fun a b => lexLe a.month b.month = true) :=
      ⟨fun a b c => lexLe_trans a.month b.month c.month⟩
    haveI : IsTotal SummaryRow (fun a b => lexLe a.month b.month = true) :=
      ⟨fun a b => lexLe_total a.month b.month⟩
    exact List.sorted_insertionSort _ _

theorem C9_witness :
    (∀ p ∈ ([((2024, 3),
        { deposits := 1500, spending := 2607/50, net := 72393/50,
          transaction_count := 3 })] : List ((ℕ × ℕ) × MonthStat)),
      p.1.1 < 10000 ∧ p.1.2 < 100) ∧
    ((parse_monthly_summary (export_monthly_summary
        [((2024, 3),
          { deposits := 1500, spending := 2607/50, net := 72393/50,
            transaction_count := 3 })])).Perm
      [((2024, 3),
        { deposits := 1500, spending := 2607/50, net := 72393/50,
          transaction_count := 3 })] ∧
    (export_monthly_summary
        [((2024, 3),
          { deposits := 1500, spending := 2607/50, net := 72393/50,
            transaction_count := 3 })]).Pairwise
      (fun a b => lexLe a.month b.month = true)) := by
  have hv : ∀ p ∈ ([((2024, 3),
      { deposits := 1500, spending := 2607/50, net := 72393/50,
        transaction_count := 3 })] : List ((ℕ × ℕ) × MonthStat)),
      p.1.1 < 10000 ∧ p.1.2 < 100 := by
    intro p hp
    rw [List.mem_singleton] at hp
    subst hp
    exact ⟨by norm_num, by norm_num⟩
  exact ⟨hv, C9_export_roundtrip _ hv⟩
